import Mathlib

/-!
Verification of the card-vault core: a shallow embedding of the three data
routes (`add_card`, `delete_card`, `retrieve_card` in `src/routes/data.rs`)
over the storage interfaces of `src/storage.rs` (`MerchantInterface`,
`LockerInterface`, `HashInterface`).

The storage-trait implementations, the crypto primitives and the request
types are not part of the two source files, so they are modelled from the
specification (sections 4.1 to 4.4): authenticated encryption is symbolic
(a ciphertext remembers the key it was made with and decryption with any
other key fails), the content fingerprint is an idealized injective digest,
and the three database relations are association lists with first-match
lookup and counter-based fresh identifiers.
-/

set_option linter.unusedVariables false

deriving instance DecidableEq for Except

namespace CardVault


/-- Modelled from the spec (4.1): a symbolic authenticated-encryption
ciphertext. It records the key it was encrypted under and the plaintext;
decryption under any other key fails, never returning malformed data. -/
structure CipherText (α : Type) where
  key : Nat
  plain : α
deriving DecidableEq, Repr

/-- Storage-level error kinds reaching the route handlers (spec section 7):
a lookup miss, or an authenticated-decryption failure. -/
inductive StorageError where
  | notFound
  | decryptionFailed
deriving DecidableEq, Repr

/-- Modelled from the spec (4.1): AES-256-GCM encryption, symbolically. -/
def gcmEncrypt {α : Type} (key : Nat) (plain : α) : CipherText α :=
  ⟨key, plain⟩

/-- Modelled from the spec (4.1): authenticated decryption; fails with
`DecryptionFailed` on a wrong key, never returns malformed plaintext. -/
def gcmDecrypt {α : Type} (key : Nat) (c : CipherText α) : Except StorageError α :=
  if c.key = key then .ok c.plain else .error .decryptionFailed

/-- Modelled from the spec (4.1): the SHA-512-class content fingerprint,
idealized as an injective deterministic function on the canonical bytes
(collision resistance is idealized as injectivity). -/
def sha512 (bs : List Nat) : List Nat :=
  0 :: bs

/-- Modelled from the spec (6): the opaque structured card payload.
`malformed` stands for a document whose canonical serialization fails,
surfacing as `EncodingError` (spec section 7). -/
inductive Payload where
  | bytes (bs : List Nat)
  | malformed
deriving DecidableEq, Repr

/-- Modelled from the spec (4.1): canonical serialization
(`serde_json::to_vec`): stable bytes for a well-formed payload, failure
otherwise. -/
def serializePayload : Payload → Option (List Nat)
  | .bytes bs => some bs
  | .malformed => none

/-- Inverse of `serializePayload` on well-formed payloads, used when a
decrypted locker entry is turned back into a response payload. -/
def deserializePayload (bs : List Nat) : Payload :=
  .bytes bs

/-- A row of the merchant table: `(tenant_id, merchant_id)` plus the DEK
encrypted under the master key (spec section 3). -/
structure Merchant where
  tenant_id : String
  merchant_id : String
  enc_key : CipherText Nat
deriving DecidableEq, Repr

/-- A row of the hash table (`HashInterface` in `src/storage.rs`): a dedup
group id together with the content fingerprint that names it. -/
structure HashTable where
  hash_id : Nat
  data_hash : List Nat
deriving DecidableEq, Repr

/-- A row of the locker table (`LockerInterface` in `src/storage.rs`): the
card reference, its `(tenant, merchant, customer)` scope, the dedup group
it belongs to, and the payload ciphertext under the merchant DEK. -/
structure Locker where
  locker_id : Nat
  tenant_id : String
  merchant_id : String
  customer_id : String
  hash_id : Nat
  enc_data : CipherText (List Nat)
deriving DecidableEq, Repr

/-- The persistent state: the three relations of spec section 6 plus the
counters that mint fresh DEKs, dedup group ids and locker ids. -/
structure VaultState where
  merchants : List Merchant
  hashes : List HashTable
  lockers : List Locker
  nextDek : Nat
  nextHashId : Nat
  nextLockerId : Nat
deriving DecidableEq, Repr

/-- `types::Merchant` as returned by the storage layer: the DEK already
decrypted with the master key, exposed in memory only (spec 4.2). -/
structure DecMerchant where
  merchant_id : String
  key : Nat
deriving DecidableEq, Repr

/-- `types::Locker` as returned by the storage layer: the payload already
decrypted with the merchant DEK. -/
structure DecLocker where
  locker_id : Nat
  hash_id : Nat
  data : List Nat
deriving DecidableEq, Repr

/-- First-match lookup of a merchant row by merchant id and tenant id. -/
def findMerchantRecord (s : VaultState) (mid tid : String) : Option Merchant :=
  s.merchants.find? (fun m => m.merchant_id == mid && m.tenant_id == tid)

/-- Modelled from the spec (4.2, trait `MerchantInterface` of
`src/storage.rs`): find the merchant for `(merchant_id, tenant_id)` and
decrypt its DEK with the master key; `NotFound` when absent. -/
def find_by_merchant_id (mid tid : String) (master : Nat) (s : VaultState) :
    Except StorageError DecMerchant :=
  match findMerchantRecord s mid tid with
  | none => .error .notFound
  | some m => (gcmDecrypt master m.enc_key).map (fun k => ⟨m.merchant_id, k⟩)

/-- Modelled from the spec (4.2, trait `MerchantInterface` of
`src/storage.rs`): find the merchant, or mint a fresh DEK, encrypt it under
the master key, persist the new merchant row and return it. -/
def find_or_create_by_merchant_id (mid tid : String) (master : Nat) (s : VaultState) :
    Except StorageError (DecMerchant × VaultState) :=
  match findMerchantRecord s mid tid with
  | some m => (gcmDecrypt master m.enc_key).map (fun k => (⟨m.merchant_id, k⟩, s))
  | none =>
      let dek := s.nextDek
      let m : Merchant := ⟨tid, mid, gcmEncrypt master dek⟩
      .ok (⟨mid, dek⟩,
        { s with merchants := s.merchants ++ [m], nextDek := s.nextDek + 1 })

/-- Modelled from the spec (4.3, trait `HashInterface` of
`src/storage.rs`): first-match lookup of a dedup entry by fingerprint. -/
def find_by_data_hash (h : List Nat) (s : VaultState) : Option HashTable :=
  s.hashes.find? (fun e => e.data_hash == h)

/-- Modelled from the spec (4.3, trait `HashInterface` of
`src/storage.rs`): insert a dedup entry with a fresh group id. -/
def insert_hash (h : List Nat) (s : VaultState) : HashTable × VaultState :=
  let e : HashTable := ⟨s.nextHashId, h⟩
  (e, { s with hashes := s.hashes ++ [e], nextHashId := s.nextHashId + 1 })

/-- The `(tenant, merchant, customer)` scope filter used by every locker
operation. -/
def lockerMatchesScope (tid mid cid : String) (l : Locker) : Bool :=
  l.tenant_id == tid && l.merchant_id == mid && l.customer_id == cid

/-- Modelled from the spec (4.4, trait `LockerInterface` of
`src/storage.rs`): the per-customer dedup-group lookup; decrypts the found
row with the merchant DEK, `none` when the customer has no row for the
group. -/
def find_by_hash_id_merchant_id_customer_id (hashId : Nat) (tid mid cid : String)
    (dek : Nat) (s : VaultState) : Except StorageError (Option DecLocker) :=
  match s.lockers.find?
      (fun l => l.hash_id == hashId && lockerMatchesScope tid mid cid l) with
  | none => .ok none
  | some l => (gcmDecrypt dek l.enc_data).map (fun d => some ⟨l.locker_id, l.hash_id, d⟩)

/-- The new-locker document built from a store request
(`(request, tenant, hash_id).try_into()` in `src/routes/data.rs`). -/
structure LockerNew where
  tenant_id : String
  merchant_id : String
  customer_id : String
  hash_id : Nat
  data : List Nat
deriving DecidableEq, Repr

/-- Modelled from the spec (4.4, trait `LockerInterface` of
`src/storage.rs`): insert a vault record for
`(tenant, merchant, customer, group)`, or return the existing one; the
fresh record gets a fresh locker id and carries the payload encrypted with
the merchant DEK. -/
def insert_or_get_from_locker (new : LockerNew) (dek : Nat) (s : VaultState) :
    Except StorageError (DecLocker × VaultState) :=
  match s.lockers.find? (fun l => l.hash_id == new.hash_id &&
      lockerMatchesScope new.tenant_id new.merchant_id new.customer_id l) with
  | some l => (gcmDecrypt dek l.enc_data).map (fun d => (⟨l.locker_id, l.hash_id, d⟩, s))
  | none =>
      let l : Locker := ⟨s.nextLockerId, new.tenant_id, new.merchant_id,
        new.customer_id, new.hash_id, gcmEncrypt dek new.data⟩
      .ok (⟨l.locker_id, new.hash_id, new.data⟩,
        { s with lockers := s.lockers ++ [l], nextLockerId := s.nextLockerId + 1 })

/-- Modelled from the spec (4.4, trait `LockerInterface` of
`src/storage.rs`): fetch a vault record by card reference scoped to the
exact `(tenant, merchant, customer)`, decrypting with the merchant DEK;
`NotFound` when the scope does not match. -/
def find_by_locker_id_merchant_id_customer_id (lockerId : Nat) (tid mid cid : String)
    (dek : Nat) (s : VaultState) : Except StorageError DecLocker :=
  match s.lockers.find?
      (fun l => l.locker_id == lockerId && lockerMatchesScope tid mid cid l) with
  | none => .error .notFound
  | some l => (gcmDecrypt dek l.enc_data).map (fun d => ⟨l.locker_id, l.hash_id, d⟩)

/-- The row filter of `delete_from_locker`. -/
def deleteMatches (lockerId : Nat) (tid mid cid : String) (l : Locker) : Bool :=
  l.locker_id == lockerId && lockerMatchesScope tid mid cid l

/-- Modelled from the spec (4.4, trait `LockerInterface` of
`src/storage.rs`): delete the vault records matching the reference and
scope, without access to the DEK; returns the number of deleted rows
(0 when nothing matched — not an error). -/
def delete_from_locker (lockerId : Nat) (tid mid cid : String) (s : VaultState) :
    Nat × VaultState :=
  (s.lockers.countP (deleteMatches lockerId tid mid cid),
   { s with lockers := s.lockers.filter (fun l => !(deleteMatches lockerId tid mid cid l)) })

/-- The `error::ApiError` contexts attached by the handlers of
`src/routes/data.rs` (entity name as in the source). -/
inductive ApiError where
  | validationFailed
  | retrieveDataFailed (entity : String)
  | encodingError
  | databaseRetrieveFailed (entity : String)
  | databaseInsertFailed (entity : String)
  | databaseDeleteFailed (entity : String)
deriving DecidableEq, Repr

/-- The error a handler surfaces: the `ApiError` context it attached via
`change_context`, together with the underlying storage-error kind (the
cause chain `error_stack` preserves). -/
structure Failure where
  context : ApiError
  cause : Option StorageError
deriving DecidableEq, Repr

/-- The process configuration the handlers read
(`state.config.secrets`): master key and the deployment tenant. -/
structure Config where
  master_key : Nat
  tenant : String
deriving DecidableEq, Repr

/-- `types::StoreCardRequest`; `wellFormed` models the outcome of
`request.validate()` (the `Validation` impl is not in the two source
files, modelled from the spec as a client-input check). -/
structure StoreCardRequest where
  merchant_id : String
  merchant_customer_id : String
  data : Payload
  wellFormed : Bool
deriving DecidableEq, Repr

/-- `types::StoreCardResponse`: the opaque card reference handed back. -/
structure StoreCardResponse where
  card_reference : Nat
deriving DecidableEq, Repr

/-- `types::RetrieveCardRequest`. -/
structure RetrieveCardRequest where
  merchant_id : String
  merchant_customer_id : String
  card_reference : Nat
deriving DecidableEq, Repr

/-- `types::RetrieveCardResponse`: the decrypted payload. -/
structure RetrieveCardResponse where
  payload : Payload
deriving DecidableEq, Repr

/-- `types::DeleteCardRequest`. -/
structure DeleteCardRequest where
  merchant_id : String
  merchant_customer_id : String
  card_reference : Nat
deriving DecidableEq, Repr

/-- `types::Status` as used by `DeleteCardResponse`. -/
inductive Status where
  | ok
deriving DecidableEq, Repr

/-- `types::DeleteCardResponse`. -/
structure DeleteCardResponse where
  status : Status
deriving DecidableEq, Repr

/-- The storage calls a handler performs, in order; `findByDataHash`
records the dedup group id the fingerprint lookup resolved to, if any. -/
inductive DbEvent where
  | findOrCreateMerchant
  | findMerchant
  | findByDataHash (found : Option Nat)
  | insertHash (hashId : Nat)
  | findByHashId (hashId : Nat)
  | insertOrGet (hashId : Nat)
  | deleteLocker
deriving DecidableEq, Repr

/-- `serde_json::to_vec(&request.data)` followed by `Sha512.encode`, the
fingerprint computation of `add_card` (`src/routes/data.rs` lines 66-73):
a function of the canonical payload bytes alone. -/
def hashDataOf (req : StoreCardRequest) : Option (List Nat) :=
  (serializePayload req.data).map sha512

/-- `(request, tenant, hash_id).try_into()` of `src/routes/data.rs`:
build the new locker document, re-serializing the payload. -/
def lockerNewOf (req : StoreCardRequest) (tid : String) (hashId : Nat) :
    Option LockerNew :=
  (serializePayload req.data).map
    (fun bs => ⟨tid, req.merchant_id, req.merchant_customer_id, hashId, bs⟩)

/-- `add_card` of `src/routes/data.rs` (`/data/add`): validate, resolve or
create the merchant (wrapping failure as `RetrieveDataFailed "merchant"`),
fingerprint the payload (failure: `EncodingError`), look up the dedup
entry; if found, try the per-customer group lookup (failure:
`DatabaseRetrieveFailed "locker"`) and return the existing record, else
insert-or-get a new one (failure: `DatabaseInsertFailed "locker"`); if the
fingerprint was absent, insert the dedup entry (failure would be
`DatabaseInsertFailed "hash_table"`) and insert-or-get the record.
Returns the response or failure, the state after the call, and the trace
of storage calls made. -/
def add_card (cfg : Config) (req : StoreCardRequest) (s : VaultState) :
    Except Failure StoreCardResponse × VaultState × List DbEvent :=
  if req.wellFormed then
    match find_or_create_by_merchant_id req.merchant_id cfg.tenant cfg.master_key s with
    | .error e =>
        (.error ⟨.retrieveDataFailed "merchant", some e⟩, s, [.findOrCreateMerchant])
    | .ok (merchant, s1) =>
      match hashDataOf req with
      | none => (.error ⟨.encodingError, none⟩, s1, [.findOrCreateMerchant])
      | some hash_data =>
        match find_by_data_hash hash_data s1 with
        | some hash_table =>
          match find_by_hash_id_merchant_id_customer_id hash_table.hash_id cfg.tenant
              req.merchant_id req.merchant_customer_id merchant.key s1 with
          | .error e =>
              (.error ⟨.databaseRetrieveFailed "locker", some e⟩, s1,
                [.findOrCreateMerchant, .findByDataHash (some hash_table.hash_id),
                 .findByHashId hash_table.hash_id])
          | .ok (some stored) =>
              (.ok ⟨stored.locker_id⟩, s1,
                [.findOrCreateMerchant, .findByDataHash (some hash_table.hash_id),
                 .findByHashId hash_table.hash_id])
          | .ok none =>
            match lockerNewOf req cfg.tenant hash_table.hash_id with
            | none =>
                (.error ⟨.encodingError, none⟩, s1,
                  [.findOrCreateMerchant, .findByDataHash (some hash_table.hash_id),
                   .findByHashId hash_table.hash_id])
            | some newLocker =>
              match insert_or_get_from_locker newLocker merchant.key s1 with
              | .error e =>
                  (.error ⟨.databaseInsertFailed "locker", some e⟩, s1,
                    [.findOrCreateMerchant, .findByDataHash (some hash_table.hash_id),
                     .findByHashId hash_table.hash_id, .insertOrGet hash_table.hash_id])
              | .ok (l, s2) =>
                  (.ok ⟨l.locker_id⟩, s2,
                    [.findOrCreateMerchant, .findByDataHash (some hash_table.hash_id),
                     .findByHashId hash_table.hash_id, .insertOrGet hash_table.hash_id])
        | none =>
          match insert_hash hash_data s1 with
          | (hash_table, s2) =>
            match lockerNewOf req cfg.tenant hash_table.hash_id with
            | none =>
                (.error ⟨.encodingError, none⟩, s2,
                  [.findOrCreateMerchant, .findByDataHash none,
                   .insertHash hash_table.hash_id])
            | some newLocker =>
              match insert_or_get_from_locker newLocker merchant.key s2 with
              | .error e =>
                  (.error ⟨.databaseInsertFailed "locker", some e⟩, s2,
                    [.findOrCreateMerchant, .findByDataHash none,
                     .insertHash hash_table.hash_id, .insertOrGet hash_table.hash_id])
              | .ok (l, s3) =>
                  (.ok ⟨l.locker_id⟩, s3,
                    [.findOrCreateMerchant, .findByDataHash none,
                     .insertHash hash_table.hash_id, .insertOrGet hash_table.hash_id])
  else (.error ⟨.validationFailed, none⟩, s, [])

/-- `retrieve_card` of `src/routes/data.rs` (`/data/retrieve`): resolve
the merchant and DEK, fetch the record by card reference scoped to
`(tenant, merchant, customer)`, decrypt, return the payload. Both
failures are wrapped — as in the source — with
`DatabaseDeleteFailed "locker"` (lines 193 and 208). -/
def retrieve_card (cfg : Config) (req : RetrieveCardRequest) (s : VaultState) :
    Except Failure RetrieveCardResponse :=
  match find_by_merchant_id req.merchant_id cfg.tenant cfg.master_key s with
  | .error e => .error ⟨.databaseDeleteFailed "locker", some e⟩
  | .ok merchant =>
    match find_by_locker_id_merchant_id_customer_id req.card_reference cfg.tenant
        req.merchant_id req.merchant_customer_id merchant.key s with
    | .error e => .error ⟨.databaseDeleteFailed "locker", some e⟩
    | .ok card => .ok ⟨deserializePayload card.data⟩

/-- `delete_card` of `src/routes/data.rs` (`/data/delete`): resolve the
merchant only to confirm it exists (failure:
`DatabaseRetrieveFailed "merchant"`), then delete by card reference and
scope, ignoring the count, and answer `Ok`. -/
def delete_card (cfg : Config) (req : DeleteCardRequest) (s : VaultState) :
    Except Failure DeleteCardResponse × VaultState :=
  match find_by_merchant_id req.merchant_id cfg.tenant cfg.master_key s with
  | .error e => (.error ⟨.databaseRetrieveFailed "merchant", some e⟩, s)
  | .ok _merchant =>
    let del := delete_from_locker req.card_reference cfg.tenant
      req.merchant_id req.merchant_customer_id s
    (.ok ⟨.ok⟩, del.2)

/-- Locker ids are globally unique in the state (spec section 3). -/
def LockerIdsUnique (s : VaultState) : Prop :=
  ∀ l1 ∈ s.lockers, ∀ l2 ∈ s.lockers, l1.locker_id = l2.locker_id → l1 = l2

/-- Every stored locker id is below the fresh-id counter. -/
def LockerIdsFresh (s : VaultState) : Prop :=
  ∀ l ∈ s.lockers, l.locker_id < s.nextLockerId

/-- Every locker's dedup group id is below the fresh-group counter. -/
def HashIdsFresh (s : VaultState) : Prop :=
  ∀ l ∈ s.lockers, l.hash_id < s.nextHashId

/-- A locker rows content matches the fingerprint of the dedup entry it
is grouped under. -/
def LockerHashConsistent (s : VaultState) : Prop :=
  ∀ l ∈ s.lockers, ∀ e ∈ s.hashes, l.hash_id = e.hash_id →
    sha512 l.enc_data.plain = e.data_hash

lemma find_mem_unique {α : Type} {xs : List α} {p : α → Bool} {a : α}
    (ha : a ∈ xs) (hpa : p a = true) (huniq : ∀ y ∈ xs, p y = true → y = a) :
    xs.find? p = some a := by
  cases hfind : xs.find? p with
  | none =>
      rw [List.find?_eq_none] at hfind
      exact absurd hpa (hfind a ha)
  | some b =>
      have hb := List.find?_some hfind
      have hmb := List.mem_of_find?_eq_some hfind
      rw [huniq b hmb hb]

lemma find_append_none {α : Type} {xs : List α} {p : α → Bool}
    (h : xs.find? p = none) (ys : List α) :
    (xs ++ ys).find? p = ys.find? p := by
  rw [List.find?_append, h, Option.none_or]

lemma sha512_inj {a b : List Nat} (h : sha512 a = sha512 b) : a = b := by
  simpa [sha512] using h

lemma serializePayload_bytes {p : Payload} {bs : List Nat}
    (h : serializePayload p = some bs) : p = .bytes bs := by
  cases p with
  | bytes bs2 => simpa [serializePayload] using congrArg (Payload.bytes) (Option.some.inj h)
  | malformed => simp [serializePayload] at h

lemma find_by_data_hash_congr {h : List Nat} {s1 s2 : VaultState}
    (he : s1.hashes = s2.hashes) :
    find_by_data_hash h s1 = find_by_data_hash h s2 := by
  unfold find_by_data_hash
  rw [he]

lemma find_or_create_ok {mid tid : String} {master : Nat} {s : VaultState}
    {m : DecMerchant} {s1 : VaultState}
    (h : find_or_create_by_merchant_id mid tid master s = .ok (m, s1)) :
    s1.hashes = s.hashes ∧ s1.lockers = s.lockers ∧
    s1.nextHashId = s.nextHashId ∧ s1.nextLockerId = s.nextLockerId ∧
    (∀ s2 : VaultState, s2.merchants = s1.merchants →
      find_by_merchant_id mid tid master s2 = .ok m ∧
      find_or_create_by_merchant_id mid tid master s2 = .ok (m, s2)) := by
  unfold find_or_create_by_merchant_id at h
  split at h
  next m0 hfind =>
    unfold gcmDecrypt at h
    split at h
    next hk =>
      simp only [Except.map] at h
      obtain ⟨hm, hs⟩ := Prod.mk.injEq .. ▸ Except.ok.inj h
      subst hm
      subst hs
      refine ⟨rfl, rfl, rfl, rfl, ?_⟩
      intro s2 hmer
      unfold findMerchantRecord at hfind
      constructor
      · unfold find_by_merchant_id findMerchantRecord
        rw [hmer, hfind]
        simp [gcmDecrypt, hk, Except.map]
      · unfold find_or_create_by_merchant_id findMerchantRecord
        rw [hmer, hfind]
        simp [gcmDecrypt, hk, Except.map]
    next hk => simp [Except.map] at h
  next hfind =>
    obtain ⟨hm, hs⟩ := Prod.mk.injEq .. ▸ Except.ok.inj h
    subst hm
    subst hs
    refine ⟨rfl, rfl, rfl, rfl, ?_⟩
    intro s2 hmer
    unfold findMerchantRecord at hfind
    have hfd : findMerchantRecord s2 mid tid =
        some ⟨tid, mid, gcmEncrypt master s.nextDek⟩ := by
      unfold findMerchantRecord
      rw [hmer, find_append_none hfind]
      simp
    constructor
    · unfold find_by_merchant_id
      rw [hfd]
      simp [gcmDecrypt, gcmEncrypt, Except.map]
    · unfold find_or_create_by_merchant_id
      rw [hfd]
      simp [gcmDecrypt, gcmEncrypt, Except.map]

lemma findMerchantRecord_aligned (mid tid : String) (master : Nat)
    (ms1 ms2 : List Merchant)
    (hm : List.Forall₂ (fun a b : Merchant =>
      a.tenant_id = b.tenant_id ∧ a.merchant_id = b.merchant_id ∧
      a.enc_key.key = master ∧ b.enc_key.key = master) ms1 ms2) :
    (ms1.find? (fun m => m.merchant_id == mid && m.tenant_id == tid) = none ∧
     ms2.find? (fun m => m.merchant_id == mid && m.tenant_id == tid) = none) ∨
    (∃ a b : Merchant,
      ms1.find? (fun m => m.merchant_id == mid && m.tenant_id == tid) = some a ∧
      ms2.find? (fun m => m.merchant_id == mid && m.tenant_id == tid) = some b ∧
      a.enc_key.key = master ∧ b.enc_key.key = master) := by
  induction hm with
  | nil => exact .inl ⟨rfl, rfl⟩
  | @cons a b l1 l2 hab htail ih =>
      obtain ⟨ht, hmid2, hka, hkb⟩ := hab
      by_cases hp : (a.merchant_id == mid && a.tenant_id == tid) = true
      · have hpb : (b.merchant_id == mid && b.tenant_id == tid) = true := by
          rw [← hmid2, ← ht]
          exact hp
        refine .inr ⟨a, b, ?_, ?_, hka, hkb⟩
        · simp [List.find?_cons, hp]
        · simp [List.find?_cons, hpb]
      · have hp2 : (a.merchant_id == mid && a.tenant_id == tid) = false := by
          simpa using hp
        have hpb : (b.merchant_id == mid && b.tenant_id == tid) = false := by
          rw [← hmid2, ← ht]
          exact hp2
        have e1 : (a :: l1).find? (fun m => m.merchant_id == mid && m.tenant_id == tid) =
            l1.find? (fun m => m.merchant_id == mid && m.tenant_id == tid) := by
          simp [List.find?_cons, hp2]
        have e2 : (b :: l2).find? (fun m => m.merchant_id == mid && m.tenant_id == tid) =
            l2.find? (fun m => m.merchant_id == mid && m.tenant_id == tid) := by
          simp [List.find?_cons, hpb]
        rw [e1, e2]
        exact ih

/-- C6 (code bug): in `retrieve_card`, both the merchant-lookup failure and
the vault-record-lookup failure are surfaced with the context
`DatabaseDeleteFailed "locker"`, naming a delete operation on the locker
entity, even though the first failure is a merchant lookup and both occur
during a retrieve (`src/routes/data.rs` lines 193 and 208); the sibling
handlers use operation- and entity-accurate contexts. The underlying error
kind (`NotFound`) is still propagated in the cause. -/
theorem retrieve_failure_wrapped_as_delete_locker :
    retrieve_card ⟨0, "t"⟩ ⟨"m1", "c1", 0⟩ ⟨[], [], [], 0, 0, 0⟩ =
      .error ⟨.databaseDeleteFailed "locker", some .notFound⟩ ∧
    retrieve_card ⟨0, "t"⟩ ⟨"m1", "c1", 0⟩
        ⟨[⟨"t", "m1", ⟨0, 7⟩⟩], [], [], 8, 0, 0⟩ =
      .error ⟨.databaseDeleteFailed "locker", some .notFound⟩ := by
  exact ⟨rfl, rfl⟩

/-- C7: when the merchant exists (with a DEK decryptable under the master
key), `delete_card` returns success whether or not any vault record
matched: deleting a nonexistent reference succeeds with zero affected rows
and an unchanged locker table, and deleting the same reference twice is
safe — the second delete also returns success. -/
theorem delete_idempotent_success (cfg : Config) (req : DeleteCardRequest)
    (s : VaultState) (m : Merchant)
    (hfind : findMerchantRecord s req.merchant_id cfg.tenant = some m)
    (hkey : m.enc_key.key = cfg.master_key) :
    (delete_card cfg req s).1 = .ok ⟨.ok⟩ ∧
    (delete_card cfg req (delete_card cfg req s).2).1 = .ok ⟨.ok⟩ ∧
    ((∀ l ∈ s.lockers, deleteMatches req.card_reference cfg.tenant req.merchant_id
        req.merchant_customer_id l = false) →
      (delete_from_locker req.card_reference cfg.tenant req.merchant_id
        req.merchant_customer_id s).1 = 0 ∧
      (delete_card cfg req s).2.lockers = s.lockers) := by
  have hmer : find_by_merchant_id req.merchant_id cfg.tenant cfg.master_key s =
      .ok ⟨m.merchant_id, m.enc_key.plain⟩ := by
    unfold find_by_merchant_id
    rw [hfind]
    simp [gcmDecrypt, hkey, Except.map]
  have hstate : delete_card cfg req s =
      (.ok ⟨.ok⟩, (delete_from_locker req.card_reference cfg.tenant req.merchant_id
        req.merchant_customer_id s).2) := by
    unfold delete_card
    rw [hmer]
  refine ⟨by rw [hstate], ?_, ?_⟩
  · rw [hstate]
    have hmer2 : find_by_merchant_id req.merchant_id cfg.tenant cfg.master_key
        (delete_from_locker req.card_reference cfg.tenant req.merchant_id
          req.merchant_customer_id s).2 = .ok ⟨m.merchant_id, m.enc_key.plain⟩ := by
      unfold find_by_merchant_id findMerchantRecord delete_from_locker
      unfold findMerchantRecord at hfind
      rw [hfind]
      simp [gcmDecrypt, hkey, Except.map]
    unfold delete_card
    rw [hmer2]
  · intro hno
    constructor
    · unfold delete_from_locker
      simp only [List.countP_eq_zero]
      intro l hl
      rw [hno l hl]
      exact Bool.false_ne_true
    · rw [hstate]
      unfold delete_from_locker
      simp only [List.filter_eq_self]
      intro l hl
      rw [hno l hl]
      rfl

/-- C10: deleting under a `(tenant_id, merchant_id)` with no merchant
record fails (with a `NotFound` cause wrapped as
`DatabaseRetrieveFailed "merchant"`) and leaves the state untouched, even
though a delete of a nonexistent card reference under an existing merchant
succeeds. -/
theorem delete_requires_merchant (cfg : Config) (req : DeleteCardRequest)
    (s : VaultState)
    (hnone : findMerchantRecord s req.merchant_id cfg.tenant = none)
    (s2 : VaultState) (req2 : DeleteCardRequest) (m2 : Merchant)
    (hfind2 : findMerchantRecord s2 req2.merchant_id cfg.tenant = some m2)
    (hkey2 : m2.enc_key.key = cfg.master_key) :
    delete_card cfg req s =
      (.error ⟨.databaseRetrieveFailed "merchant", some .notFound⟩, s) ∧
    (delete_card cfg req2 s2).1 = .ok ⟨.ok⟩ := by
  constructor
  · unfold delete_card find_by_merchant_id
    rw [hnone]
  · unfold delete_card find_by_merchant_id
    rw [hfind2]
    simp [gcmDecrypt, hkey2, Except.map]

/-- C9: store is not atomic after step one: when the payload cannot be
serialized, `add_card` fails with `EncodingError` having written nothing to
the hash table or the locker table, yet the merchant record created by the
preceding `find_or_create_by_merchant_id` stays persisted; a request that
fails validation, by contrast, aborts before any storage access and leaves
the state unchanged. -/
theorem add_card_partial_persistence (cfg : Config) (req : StoreCardRequest)
    (s : VaultState) (req2 : StoreCardRequest) (s3 : VaultState)
    (hval : req.wellFormed = true)
    (hser : serializePayload req.data = none)
    (hnom : findMerchantRecord s req.merchant_id cfg.tenant = none)
    (hval2 : req2.wellFormed = false) :
    add_card cfg req s =
      (.error ⟨.encodingError, none⟩,
        { s with
          merchants := s.merchants ++
            [⟨cfg.tenant, req.merchant_id, gcmEncrypt cfg.master_key s.nextDek⟩],
          nextDek := s.nextDek + 1 },
        [.findOrCreateMerchant]) ∧
    add_card cfg req2 s3 = (.error ⟨.validationFailed, none⟩, s3, []) := by
  constructor
  · unfold add_card find_or_create_by_merchant_id
    rw [hval, hnom]
    simp [hashDataOf, hser]
  · unfold add_card
    rw [hval2]
    simp

/-- C5 (counterexample): the delete outcome is not independent of the
merchant encrypted key material: two states that differ only in the
ciphertext of the merchant DEK (one encrypted under the master key, one
not) give different delete results, because `delete_card` resolves the
merchant through `find_by_merchant_id`, which decrypts the DEK with the
master key. -/
theorem delete_result_depends_on_dek_ciphertext :
    (delete_card ⟨0, "t"⟩ ⟨"m1", "c1", 0⟩
        ⟨[⟨"t", "m1", ⟨0, 5⟩⟩], [], [], 6, 0, 0⟩).1 ≠
      (delete_card ⟨0, "t"⟩ ⟨"m1", "c1", 0⟩
        ⟨[⟨"t", "m1", ⟨1, 5⟩⟩], [], [], 6, 0, 0⟩).1 := by
  decide

/-- C5 (amended): `delete_card` never uses the DEK on payload data, so the
delete result and the resulting locker table are the same in any two
states that differ only in the merchants encrypted DEK material, provided
both DEK ciphertexts decrypt under the master key. -/
theorem delete_independent_of_decryptable_dek (cfg : Config)
    (req : DeleteCardRequest) (s1 s2 : VaultState)
    (hm : List.Forall₂ (fun a b : Merchant =>
      a.tenant_id = b.tenant_id ∧ a.merchant_id = b.merchant_id ∧
      a.enc_key.key = cfg.master_key ∧ b.enc_key.key = cfg.master_key)
      s1.merchants s2.merchants)
    (hl : s1.lockers = s2.lockers) :
    (delete_card cfg req s1).1 = (delete_card cfg req s2).1 ∧
    (delete_card cfg req s1).2.lockers = (delete_card cfg req s2).2.lockers := by
  rcases findMerchantRecord_aligned req.merchant_id cfg.tenant cfg.master_key
      s1.merchants s2.merchants hm with
    ⟨h1, h2⟩ | ⟨a, b, h1, h2, hka, hkb⟩
  · unfold delete_card find_by_merchant_id findMerchantRecord
    rw [h1, h2]
    simp [hl]
  · unfold delete_card find_by_merchant_id findMerchantRecord
    rw [h1, h2]
    simp [gcmDecrypt, hka, hkb, Except.map, delete_from_locker, hl]

lemma retrieve_no_match_not_found (cfg : Config) (s : VaultState) (ref : Nat)
    (mid cid : String)
    (hno : ∀ l ∈ s.lockers, ¬(l.locker_id = ref ∧ l.tenant_id = cfg.tenant ∧
      l.merchant_id = mid ∧ l.customer_id = cid))
    (hkeys : ∀ m ∈ s.merchants, m.enc_key.key = cfg.master_key) :
    ∃ f : Failure, retrieve_card cfg ⟨mid, cid, ref⟩ s = .error f ∧
      f.cause = some .notFound := by
  unfold retrieve_card
  cases hfm : find_by_merchant_id mid cfg.tenant cfg.master_key s with
  | error e =>
      have he : e = .notFound := by
        unfold find_by_merchant_id at hfm
        split at hfm
        next hfind => exact (Except.error.inj hfm).symm
        next m hfind =>
          have hmem : m ∈ s.merchants :=
            List.mem_of_find?_eq_some hfind
          simp [gcmDecrypt, hkeys m hmem, Except.map] at hfm
      subst he
      exact ⟨⟨.databaseDeleteFailed "locker", some .notFound⟩, rfl, rfl⟩
  | ok merchant =>
      have hfl : s.lockers.find?
          (fun l => l.locker_id == ref && lockerMatchesScope cfg.tenant mid cid l) =
          none := by
        rw [List.find?_eq_none]
        intro l hl hp
        simp only [lockerMatchesScope, Bool.and_eq_true, beq_iff_eq] at hp
        obtain ⟨h1, ⟨h2, h3⟩, h4⟩ := hp
        exact hno l hl ⟨h1, h2, h3, h4⟩
      unfold find_by_locker_id_merchant_id_customer_id
      rw [hfl]
      exact ⟨⟨.databaseDeleteFailed "locker", some .notFound⟩, rfl, rfl⟩

/-- C3: a card reference whose vault records all belong to merchant M1 and
customer C1 never resolves under another merchants credentials, nor under
another customer id: the retrieve fails, its underlying error kind is
`NotFound` (not a decryption failure), and no decrypted data is returned. -/
theorem retrieve_cross_scope_not_found (cfg : Config) (s : VaultState) (ref : Nat)
    (m1 c1 m2 c2 cx : String) (hm : m2 ≠ m1) (hc : c2 ≠ c1)
    (href : ∀ l ∈ s.lockers, l.locker_id = ref →
      l.merchant_id = m1 ∧ l.customer_id = c1)
    (hkeys : ∀ m ∈ s.merchants, m.enc_key.key = cfg.master_key) :
    (∃ f : Failure, retrieve_card cfg ⟨m2, cx, ref⟩ s = .error f ∧
      f.cause = some .notFound) ∧
    (∃ f : Failure, retrieve_card cfg ⟨m1, c2, ref⟩ s = .error f ∧
      f.cause = some .notFound) := by
  constructor
  · refine retrieve_no_match_not_found cfg s ref m2 cx ?_ hkeys
    intro l hl hp
    exact hm (hp.2.2.1 ▸ (href l hl hp.1).1.symm).symm
  · refine retrieve_no_match_not_found cfg s ref m1 c2 ?_ hkeys
    intro l hl hp
    exact hc (hp.2.2.2 ▸ (href l hl hp.1).2.symm).symm

/-- Witness for C3 at a concrete state: one locker under (m1, c1), a second
merchant m2 present, retrieval under m2 or under customer c2 is NotFound. -/
theorem retrieve_cross_scope_not_found_witness :
    (∃ f : Failure,
      retrieve_card ⟨0, "t"⟩ ⟨"m2", "c1", 0⟩
        ⟨[⟨"t", "m1", ⟨0, 5⟩⟩, ⟨"t", "m2", ⟨0, 6⟩⟩], [⟨0, [0, 4]⟩],
         [⟨0, "t", "m1", "c1", 0, ⟨5, [4]⟩⟩], 7, 1, 1⟩ = .error f ∧
      f.cause = some .notFound) ∧
    (∃ f : Failure,
      retrieve_card ⟨0, "t"⟩ ⟨"m1", "c2", 0⟩
        ⟨[⟨"t", "m1", ⟨0, 5⟩⟩, ⟨"t", "m2", ⟨0, 6⟩⟩], [⟨0, [0, 4]⟩],
         [⟨0, "t", "m1", "c1", 0, ⟨5, [4]⟩⟩], 7, 1, 1⟩ = .error f ∧
      f.cause = some .notFound) :=
  retrieve_cross_scope_not_found ⟨0, "t"⟩
    ⟨[⟨"t", "m1", ⟨0, 5⟩⟩, ⟨"t", "m2", ⟨0, 6⟩⟩], [⟨0, [0, 4]⟩],
     [⟨0, "t", "m1", "c1", 0, ⟨5, [4]⟩⟩], 7, 1, 1⟩ 0 "m1" "c1" "m2" "c2" "c1"
    (by decide) (by decide) (by decide) (by decide)

/-- Witness for C7 at a concrete state: merchant m1 exists, no locker rows;
deleting a nonexistent reference succeeds with zero affected rows, twice. -/
theorem delete_idempotent_success_witness :
    (delete_card ⟨0, "t"⟩ ⟨"m1", "c1", 0⟩
        ⟨[⟨"t", "m1", ⟨0, 5⟩⟩], [], [], 6, 0, 0⟩).1 = .ok ⟨.ok⟩ ∧
    (delete_card ⟨0, "t"⟩ ⟨"m1", "c1", 0⟩
        (delete_card ⟨0, "t"⟩ ⟨"m1", "c1", 0⟩
          ⟨[⟨"t", "m1", ⟨0, 5⟩⟩], [], [], 6, 0, 0⟩).2).1 = .ok ⟨.ok⟩ ∧
    ((∀ l ∈ (⟨[⟨"t", "m1", ⟨0, 5⟩⟩], [], [], 6, 0, 0⟩ : VaultState).lockers,
        deleteMatches 0 "t" "m1" "c1" l = false) →
      (delete_from_locker 0 "t" "m1" "c1"
        ⟨[⟨"t", "m1", ⟨0, 5⟩⟩], [], [], 6, 0, 0⟩).1 = 0 ∧
      (delete_card ⟨0, "t"⟩ ⟨"m1", "c1", 0⟩
        ⟨[⟨"t", "m1", ⟨0, 5⟩⟩], [], [], 6, 0, 0⟩).2.lockers =
        (⟨[⟨"t", "m1", ⟨0, 5⟩⟩], [], [], 6, 0, 0⟩ : VaultState).lockers) :=
  delete_idempotent_success ⟨0, "t"⟩ ⟨"m1", "c1", 0⟩
    ⟨[⟨"t", "m1", ⟨0, 5⟩⟩], [], [], 6, 0, 0⟩ ⟨"t", "m1", ⟨0, 5⟩⟩
    (by decide) (by decide)

/-- Witness for C10: deleting under unknown merchant m2 errors and leaves
the state unchanged; deleting a nonexistent reference under existing
merchant m1 succeeds. -/
theorem delete_requires_merchant_witness :
    delete_card ⟨0, "t"⟩ ⟨"m2", "c1", 0⟩
        ⟨[⟨"t", "m1", ⟨0, 5⟩⟩], [], [], 6, 0, 0⟩ =
      (.error ⟨.databaseRetrieveFailed "merchant", some .notFound⟩,
        ⟨[⟨"t", "m1", ⟨0, 5⟩⟩], [], [], 6, 0, 0⟩) ∧
    (delete_card ⟨0, "t"⟩ ⟨"m1", "c1", 0⟩
        ⟨[⟨"t", "m1", ⟨0, 5⟩⟩], [], [], 6, 0, 0⟩).1 = .ok ⟨.ok⟩ :=
  delete_requires_merchant ⟨0, "t"⟩ ⟨"m2", "c1", 0⟩
    ⟨[⟨"t", "m1", ⟨0, 5⟩⟩], [], [], 6, 0, 0⟩ (by decide)
    ⟨[⟨"t", "m1", ⟨0, 5⟩⟩], [], [], 6, 0, 0⟩ ⟨"m1", "c1", 0⟩
    ⟨"t", "m1", ⟨0, 5⟩⟩ (by decide) (by decide)

/-- Witness for C9: storing an unserializable payload for a fresh merchant
fails with EncodingError but persists the merchant record; an invalid
request leaves the state unchanged. -/
theorem add_card_partial_persistence_witness :
    add_card ⟨0, "t"⟩ ⟨"m1", "c1", .malformed, true⟩ ⟨[], [], [], 0, 0, 0⟩ =
      (.error ⟨.encodingError, none⟩,
        ⟨[⟨"t", "m1", ⟨0, 0⟩⟩], [], [], 1, 0, 0⟩,
        [.findOrCreateMerchant]) ∧
    add_card ⟨0, "t"⟩ ⟨"m1", "c1", .bytes [4], false⟩ ⟨[], [], [], 0, 0, 0⟩ =
      (.error ⟨.validationFailed, none⟩, ⟨[], [], [], 0, 0, 0⟩, []) :=
  add_card_partial_persistence ⟨0, "t"⟩ ⟨"m1", "c1", .malformed, true⟩
    ⟨[], [], [], 0, 0, 0⟩ ⟨"m1", "c1", .bytes [4], false⟩ ⟨[], [], [], 0, 0, 0⟩
    rfl rfl (by decide) rfl

/-- Witness for the amended C5: two states whose merchant rows differ only
in the (decryptable) encrypted DEK give the same delete outcome. -/
theorem delete_independent_of_decryptable_dek_witness :
    (delete_card ⟨0, "t"⟩ ⟨"m1", "c1", 0⟩
        ⟨[⟨"t", "m1", ⟨0, 5⟩⟩], [], [], 6, 0, 0⟩).1 =
      (delete_card ⟨0, "t"⟩ ⟨"m1", "c1", 0⟩
        ⟨[⟨"t", "m1", ⟨0, 9⟩⟩], [], [], 6, 0, 0⟩).1 ∧
    (delete_card ⟨0, "t"⟩ ⟨"m1", "c1", 0⟩
        ⟨[⟨"t", "m1", ⟨0, 5⟩⟩], [], [], 6, 0, 0⟩).2.lockers =
      (delete_card ⟨0, "t"⟩ ⟨"m1", "c1", 0⟩
        ⟨[⟨"t", "m1", ⟨0, 9⟩⟩], [], [], 6, 0, 0⟩).2.lockers :=
  delete_independent_of_decryptable_dek ⟨0, "t"⟩ ⟨"m1", "c1", 0⟩
    ⟨[⟨"t", "m1", ⟨0, 5⟩⟩], [], [], 6, 0, 0⟩
    ⟨[⟨"t", "m1", ⟨0, 9⟩⟩], [], [], 6, 0, 0⟩
    (List.Forall₂.cons ⟨rfl, rfl, rfl, rfl⟩ List.Forall₂.nil) rfl

/-- C4 (counterexample): the claim that the per-customer `find_by_group`
lookup is attempted whether the fingerprint entry was found or freshly
inserted is false: a successful store of fresh content (empty vault)
resolves the group by inserting it and its trace contains no per-customer
group lookup at all. -/
theorem store_fresh_content_skips_group_lookup :
    (add_card ⟨0, "t"⟩ ⟨"m1", "c1", .bytes [4, 1], true⟩ ⟨[], [], [], 0, 0, 0⟩).1 =
      .ok ⟨0⟩ ∧
    ∀ h : Nat, DbEvent.findByHashId h ∉
      (add_card ⟨0, "t"⟩ ⟨"m1", "c1", .bytes [4, 1], true⟩ ⟨[], [], [], 0, 0, 0⟩).2.2 := by
  constructor
  · rfl
  · intro h
    have htr : (add_card ⟨0, "t"⟩ ⟨"m1", "c1", .bytes [4, 1], true⟩
        ⟨[], [], [], 0, 0, 0⟩).2.2 =
        [.findOrCreateMerchant, .findByDataHash none, .insertHash 0, .insertOrGet 0] := rfl
    rw [htr]
    simp

/-- C4 (amended): when the fingerprint entry was found, `add_card`
attempts the per-customer group lookup (and inserts no dedup entry); when
the fingerprint was freshly inserted, `add_card` skips the per-customer
lookup and directly calls insert-or-get; and a successful store that
performed no insert-or-get (the existing record was returned) writes no
vault record. -/
theorem add_card_group_lookup_order (cfg : Config) (req : StoreCardRequest)
    (s : VaultState) (res : Except Failure StoreCardResponse) (st : VaultState)
    (tr : List DbEvent)
    (hrun : add_card cfg req s = (res, st, tr)) :
    (∀ h : Nat, DbEvent.findByDataHash (some h) ∈ tr →
      DbEvent.findByHashId h ∈ tr ∧ ∀ h2 : Nat, DbEvent.insertHash h2 ∉ tr) ∧
    (DbEvent.findByDataHash none ∈ tr →
      (∃ h2 : Nat, DbEvent.insertHash h2 ∈ tr) ∧
      ∀ h3 : Nat, DbEvent.findByHashId h3 ∉ tr) ∧
    (∀ resp : StoreCardResponse, res = .ok resp →
      (∀ h4 : Nat, DbEvent.insertOrGet h4 ∉ tr) → st.lockers = s.lockers) := by
  unfold add_card at hrun
  split at hrun
  case isTrue hwf =>
    split at hrun
    next e heq =>
      injection hrun with e1 e23
      injection e23 with e2 e3
      subst e1; subst e2; subst e3
      simp
    next merchant s1 heq =>
      obtain ⟨hh, hl, hnh, hnl, hfm⟩ := find_or_create_ok heq
      split at hrun
      next hhd =>
        injection hrun with e1 e23
        injection e23 with e2 e3
        subst e1; subst e2; subst e3
        simp
      next hash_data hhd =>
        split at hrun
        next hash_table hopt =>
          split at hrun
          next e hfb =>
            injection hrun with e1 e23
            injection e23 with e2 e3
            subst e1; subst e2; subst e3
            refine ⟨?_, by simp, by simp⟩
            intro h hmem
            simp at hmem
            subst hmem
            exact ⟨by simp, by simp⟩
          next stored hfb =>
            injection hrun with e1 e23
            injection e23 with e2 e3
            subst e1; subst e2; subst e3
            refine ⟨?_, by simp, ?_⟩
            · intro h hmem
              simp at hmem
              subst hmem
              exact ⟨by simp, by simp⟩
            · intro resp hresp hins
              rw [hl]
          next hfb =>
            split at hrun
            next hln =>
              injection hrun with e1 e23
              injection e23 with e2 e3
              subst e1; subst e2; subst e3
              refine ⟨?_, by simp, by simp⟩
              intro h hmem
              simp at hmem
              subst hmem
              exact ⟨by simp, by simp⟩
            next newLocker hln =>
              split at hrun
              next e hins =>
                injection hrun with e1 e23
                injection e23 with e2 e3
                subst e1; subst e2; subst e3
                refine ⟨?_, by simp, by simp⟩
                intro h hmem
                simp at hmem
                subst hmem
                exact ⟨by simp, by simp⟩
              next l s2 hins =>
                injection hrun with e1 e23
                injection e23 with e2 e3
                subst e1; subst e2; subst e3
                refine ⟨?_, by simp, ?_⟩
                · intro h hmem
                  simp at hmem
                  subst hmem
                  exact ⟨by simp, by simp⟩
                · intro resp hresp hnoins
                  exact absurd (by simp : DbEvent.insertOrGet hash_table.hash_id ∈ _)
                    (hnoins hash_table.hash_id)
        next hopt =>
          split at hrun
          next hash_table s2 hinsh =>
            split at hrun
            next hln =>
              injection hrun with e1 e23
              injection e23 with e2 e3
              subst e1; subst e2; subst e3
              refine ⟨by simp, ?_, by simp⟩
              intro hmem
              exact ⟨⟨hash_table.hash_id, by simp⟩, by simp⟩
            next newLocker hln =>
              split at hrun
              next e hins =>
                injection hrun with e1 e23
                injection e23 with e2 e3
                subst e1; subst e2; subst e3
                refine ⟨by simp, ?_, by simp⟩
                intro hmem
                exact ⟨⟨hash_table.hash_id, by simp⟩, by simp⟩
              next l s3 hins =>
                injection hrun with e1 e23
                injection e23 with e2 e3
                subst e1; subst e2; subst e3
                refine ⟨by simp, ?_, ?_⟩
                · intro hmem
                  exact ⟨⟨hash_table.hash_id, by simp⟩, by simp⟩
                · intro resp hresp hnoins
                  exact absurd (by simp : DbEvent.insertOrGet hash_table.hash_id ∈ _)
                    (hnoins hash_table.hash_id)
  case isFalse hwf =>
    injection hrun with e1 e23
    injection e23 with e2 e3
    subst e1; subst e2; subst e3
    simp


theorem add_card_group_lookup_order_witness :
    (∀ h : Nat, DbEvent.findByDataHash (some h) ∈
        [DbEvent.findOrCreateMerchant, DbEvent.findByDataHash (some 0),
         DbEvent.findByHashId 0] →
      DbEvent.findByHashId h ∈
        [DbEvent.findOrCreateMerchant, DbEvent.findByDataHash (some 0),
         DbEvent.findByHashId 0] ∧
      ∀ h2 : Nat, DbEvent.insertHash h2 ∉
        [DbEvent.findOrCreateMerchant, DbEvent.findByDataHash (some 0),
         DbEvent.findByHashId 0]) ∧
    (DbEvent.findByDataHash none ∈
        [DbEvent.findOrCreateMerchant, DbEvent.findByDataHash (some 0),
         DbEvent.findByHashId 0] →
      (∃ h2 : Nat, DbEvent.insertHash h2 ∈
        [DbEvent.findOrCreateMerchant, DbEvent.findByDataHash (some 0),
         DbEvent.findByHashId 0]) ∧
      ∀ h3 : Nat, DbEvent.findByHashId h3 ∉
        [DbEvent.findOrCreateMerchant, DbEvent.findByDataHash (some 0),
         DbEvent.findByHashId 0]) ∧
    (∀ resp : StoreCardResponse,
      (.ok ⟨0⟩ : Except Failure StoreCardResponse) = .ok resp →
      (∀ h4 : Nat, DbEvent.insertOrGet h4 ∉
        [DbEvent.findOrCreateMerchant, DbEvent.findByDataHash (some 0),
         DbEvent.findByHashId 0]) →
      (⟨[⟨"t", "m1", ⟨0, 0⟩⟩], [⟨0, [0, 4, 1]⟩],
        [⟨0, "t", "m1", "c1", 0, ⟨0, [4, 1]⟩⟩], 1, 1, 1⟩ : VaultState).lockers =
      (⟨[⟨"t", "m1", ⟨0, 0⟩⟩], [⟨0, [0, 4, 1]⟩],
        [⟨0, "t", "m1", "c1", 0, ⟨0, [4, 1]⟩⟩], 1, 1, 1⟩ : VaultState).lockers) :=
  add_card_group_lookup_order ⟨0, "t"⟩ ⟨"m1", "c1", .bytes [4, 1], true⟩
    ⟨[⟨"t", "m1", ⟨0, 0⟩⟩], [⟨0, [0, 4, 1]⟩],
     [⟨0, "t", "m1", "c1", 0, ⟨0, [4, 1]⟩⟩], 1, 1, 1⟩
    (.ok ⟨0⟩)
    ⟨[⟨"t", "m1", ⟨0, 0⟩⟩], [⟨0, [0, 4, 1]⟩],
     [⟨0, "t", "m1", "c1", 0, ⟨0, [4, 1]⟩⟩], 1, 1, 1⟩
    [DbEvent.findOrCreateMerchant, DbEvent.findByDataHash (some 0),
     DbEvent.findByHashId 0]
    (by decide)

/-- Inversion of the store trace: a fingerprint-lookup event records
exactly the dedup resolution of the serialized payload against the initial
state. -/
lemma findByDataHash_event_inv (cfg : Config) (req : StoreCardRequest)
    (s : VaultState) (o : Option Nat)
    (h : DbEvent.findByDataHash o ∈ (add_card cfg req s).2.2) :
    ∃ bs, serializePayload req.data = some bs ∧
      o = (find_by_data_hash (sha512 bs) s).map (fun e => e.hash_id) := by
  rcases hrun : add_card cfg req s with ⟨res, st, tr⟩
  rw [hrun] at h
  simp only at h
  unfold add_card at hrun
  split at hrun
  case isTrue hwf =>
    split at hrun
    next e heq =>
      injection hrun with e1 e23
      injection e23 with e2 e3
      subst e3
      simp at h
    next merchant s1 heq =>
      obtain ⟨hh, hl, hnh, hnl, hfm⟩ := find_or_create_ok heq
      split at hrun
      next hhd =>
        injection hrun with e1 e23
        injection e23 with e2 e3
        subst e3
        simp at h
      next hash_data hhd =>
        obtain ⟨bs, hbs, hsha⟩ := Option.map_eq_some'.mp hhd
        have hfdh : find_by_data_hash (sha512 bs) s = find_by_data_hash hash_data s1 := by
          rw [hsha]
          exact (find_by_data_hash_congr hh).symm
        refine ⟨bs, hbs, ?_⟩
        split at hrun
        next hash_table hopt =>
          rw [hfdh, hopt]
          split at hrun
          next e hfb =>
            injection hrun with e1 e23
            injection e23 with e2 e3
            subst e3
            simp at h
            simp [h]
          next stored hfb =>
            injection hrun with e1 e23
            injection e23 with e2 e3
            subst e3
            simp at h
            simp [h]
          next hfb =>
            split at hrun
            next hln =>
              injection hrun with e1 e23
              injection e23 with e2 e3
              subst e3
              simp at h
              simp [h]
            next newLocker hln =>
              split at hrun
              next e hins =>
                injection hrun with e1 e23
                injection e23 with e2 e3
                subst e3
                simp at h
                simp [h]
              next l s2 hins =>
                injection hrun with e1 e23
                injection e23 with e2 e3
                subst e3
                simp at h
                simp [h]
        next hopt =>
          rw [hfdh, hopt]
          split at hrun
          next hash_table s2 hinsh =>
            split at hrun
            next hln =>
              injection hrun with e1 e23
              injection e23 with e2 e3
              subst e3
              simp at h
              simp [h]
            next newLocker hln =>
              split at hrun
              next e hins =>
                injection hrun with e1 e23
                injection e23 with e2 e3
                subst e3
                simp at h
                simp [h]
              next l s3 hins =>
                injection hrun with e1 e23
                injection e23 with e2 e3
                subst e3
                simp at h
                simp [h]
  case isFalse hwf =>
    injection hrun with e1 e23
    injection e23 with e2 e3
    subst e3
    simp at h

/-- C8: the fingerprint `add_card` computes is a pure function of the
canonically serialized payload bytes alone, and two store requests whose
payloads serialize identically resolve to the same dedup entry from the
same state, regardless of the tenant, merchant or customer that submitted
them (and even of the master key). -/
theorem fingerprint_pure_function (cfg1 cfg2 : Config) (r1 r2 : StoreCardRequest)
    (s : VaultState) (o1 o2 : Option Nat)
    (hser : serializePayload r1.data = serializePayload r2.data)
    (h1 : DbEvent.findByDataHash o1 ∈ (add_card cfg1 r1 s).2.2)
    (h2 : DbEvent.findByDataHash o2 ∈ (add_card cfg2 r2 s).2.2) :
    hashDataOf r1 = hashDataOf r2 ∧ o1 = o2 := by
  obtain ⟨bs1, hs1, ho1⟩ := findByDataHash_event_inv cfg1 r1 s o1 h1
  obtain ⟨bs2, hs2, ho2⟩ := findByDataHash_event_inv cfg2 r2 s o2 h2
  have hbs : bs1 = bs2 := by
    rw [hser] at hs1
    rw [hs1] at hs2
    exact Option.some.inj hs2
  constructor
  · unfold hashDataOf
    rw [hser]
  · rw [ho1, ho2, hbs]

theorem fingerprint_pure_function_witness :
    hashDataOf ⟨"mA", "cA", .bytes [7], true⟩ =
      hashDataOf ⟨"mB", "cB", .bytes [7], true⟩ ∧
    (none : Option Nat) = none :=
  fingerprint_pure_function ⟨0, "t"⟩ ⟨3, "u"⟩ ⟨"mA", "cA", .bytes [7], true⟩
    ⟨"mB", "cB", .bytes [7], true⟩ ⟨[], [], [], 0, 0, 0⟩ none none rfl
    (by decide) (by decide)


/-- Inversion of a successful per-customer group lookup: the found row, its
scope facts and its decryption. -/
lemma find_by_hash_id_inv_some {hashId : Nat} {tid mid cid : String} {dek : Nat}
    {s : VaultState} {stored : DecLocker}
    (h : find_by_hash_id_merchant_id_customer_id hashId tid mid cid dek s =
      .ok (some stored)) :
    ∃ l, l ∈ s.lockers ∧
      s.lockers.find? (fun l2 => l2.hash_id == hashId &&
        lockerMatchesScope tid mid cid l2) = some l ∧
      l.enc_data.key = dek ∧ stored = ⟨l.locker_id, l.hash_id, l.enc_data.plain⟩ := by
  unfold find_by_hash_id_merchant_id_customer_id at h
  split at h
  next hfl => exact absurd (Except.ok.inj h) (by simp)
  next l hfl =>
    unfold gcmDecrypt at h
    split at h
    next hkey =>
      simp only [Except.map] at h
      exact ⟨l, List.mem_of_find?_eq_some hfl, hfl, hkey,
        (Option.some.inj (Except.ok.inj h)).symm⟩
    next hkey => simp [Except.map] at h

/-- Inversion of a per-customer group lookup that found nothing. -/
lemma find_by_hash_id_inv_none {hashId : Nat} {tid mid cid : String} {dek : Nat}
    {s : VaultState}
    (h : find_by_hash_id_merchant_id_customer_id hashId tid mid cid dek s = .ok none) :
    s.lockers.find? (fun l2 => l2.hash_id == hashId &&
      lockerMatchesScope tid mid cid l2) = none := by
  unfold find_by_hash_id_merchant_id_customer_id at h
  split at h
  next hfl => exact hfl
  next l hfl =>
    unfold gcmDecrypt at h
    split at h
    next hkey => simp [Except.map] at h
    next hkey => simp [Except.map] at h

/-- When no row exists for the scope and group, insert-or-get inserts a
fresh row and returns it. -/
lemma insert_or_get_inserts (new : LockerNew) (dek : Nat) {s : VaultState}
    (hfl : s.lockers.find? (fun l => l.hash_id == new.hash_id &&
      lockerMatchesScope new.tenant_id new.merchant_id new.customer_id l) = none) :
    insert_or_get_from_locker new dek s =
      .ok (⟨s.nextLockerId, new.hash_id, new.data⟩,
        { s with
          lockers := s.lockers ++
            [⟨s.nextLockerId, new.tenant_id, new.merchant_id, new.customer_id,
              new.hash_id, gcmEncrypt dek new.data⟩],
          nextLockerId := s.nextLockerId + 1 }) := by
  unfold insert_or_get_from_locker
  rw [hfl]

/-- Retrieving a freshly appended locker row under its own scope returns
its plaintext. -/
lemma retrieve_fresh_locker (cfg : Config) (mid cid : String)
    (merchant : DecMerchant) (sBase sNew : VaultState) (hashId : Nat)
    (bs : List Nat)
    (hmer : find_by_merchant_id mid cfg.tenant cfg.master_key sNew = .ok merchant)
    (hlock : sNew.lockers = sBase.lockers ++
      [⟨sBase.nextLockerId, cfg.tenant, mid, cid, hashId, gcmEncrypt merchant.key bs⟩])
    (hpre : ∀ y ∈ sBase.lockers, y.locker_id ≠ sBase.nextLockerId) :
    retrieve_card cfg ⟨mid, cid, sBase.nextLockerId⟩ sNew =
      .ok ⟨deserializePayload bs⟩ := by
  unfold retrieve_card
  rw [hmer]
  have hpre2 : sBase.lockers.find? (fun y => y.locker_id == sBase.nextLockerId &&
      lockerMatchesScope cfg.tenant mid cid y) = none := by
    rw [List.find?_eq_none]
    intro y hy hq
    simp only [Bool.and_eq_true, beq_iff_eq] at hq
    exact absurd hq.1 (hpre y hy)
  have hfind : sNew.lockers.find? (fun y => y.locker_id == sBase.nextLockerId &&
      lockerMatchesScope cfg.tenant mid cid y) =
      some ⟨sBase.nextLockerId, cfg.tenant, mid, cid, hashId,
        gcmEncrypt merchant.key bs⟩ := by
    rw [hlock, find_append_none hpre2]
    simp [lockerMatchesScope]
  unfold find_by_locker_id_merchant_id_customer_id
  rw [hfind]
  simp [gcmDecrypt, gcmEncrypt, Except.map]

/-- C2: round trip. From any well-formed state (globally unique and fresh
locker ids, fresh group ids, locker contents matching their dedup
fingerprints), if storing payload P for (tenant, merchant, customer)
succeeds with some card reference, then retrieving that reference under the
same (tenant, merchant, customer) from the resulting state returns a
payload bit-for-bit equal to P. -/
theorem store_retrieve_roundtrip (cfg : Config) (req : StoreCardRequest)
    (s sF : VaultState) (resp : StoreCardResponse) (tr : List DbEvent)
    (hUniq : LockerIdsUnique s) (hLFresh : LockerIdsFresh s)
    (hHFresh : HashIdsFresh s) (hCons : LockerHashConsistent s)
    (hAdd : add_card cfg req s = (.ok resp, sF, tr)) :
    retrieve_card cfg ⟨req.merchant_id, req.merchant_customer_id, resp.card_reference⟩
      sF = .ok ⟨req.data⟩ := by
  unfold add_card at hAdd
  split at hAdd
  case isFalse hwf => simp at hAdd
  case isTrue hwf =>
  split at hAdd
  next e heq => simp at hAdd
  next merchant s1 heq =>
  obtain ⟨hh, hl, hnh, hnl, hfm⟩ := find_or_create_ok heq
  split at hAdd
  next hhd => simp at hAdd
  next hash_data hhd =>
  obtain ⟨bs, hbs, hsha⟩ := Option.map_eq_some'.mp hhd
  have hdata : req.data = .bytes bs := serializePayload_bytes hbs
  have hlnOf : ∀ hid : Nat, lockerNewOf req cfg.tenant hid =
      some ⟨cfg.tenant, req.merchant_id, req.merchant_customer_id, hid, bs⟩ := by
    intro hid
    unfold lockerNewOf
    rw [hbs]
    rfl
  have hfreshLock : ∀ y ∈ s1.lockers, y.locker_id ≠ s1.nextLockerId := by
    intro y hy
    have hlt2 := hLFresh y (by rwa [hl] at hy)
    rw [← hnl] at hlt2
    exact Nat.ne_of_lt hlt2
  split at hAdd
  next hash_table hopt =>
    have htmem : hash_table ∈ s.hashes := by
      unfold find_by_data_hash at hopt
      have := List.mem_of_find?_eq_some hopt
      rwa [hh] at this
    have htdh : hash_table.data_hash = hash_data := by
      unfold find_by_data_hash at hopt
      have := List.find?_some hopt
      simpa using this
    split at hAdd
    next e hfb => simp at hAdd
    next stored hfb =>
      injection hAdd with e1 e23
      injection e23 with e2 e3
      have hresp : resp = ⟨stored.locker_id⟩ := (Except.ok.inj e1).symm
      subst e2
      obtain ⟨l, hlmem1, hfl, hkey, hstored⟩ := find_by_hash_id_inv_some hfb
      have hlmem : l ∈ s.lockers := by rwa [hl] at hlmem1
      have hlp := List.find?_some hfl
      simp only [lockerMatchesScope, Bool.and_eq_true, beq_iff_eq] at hlp
      obtain ⟨hlhash, ⟨hlt, hlm⟩, hlc⟩ := hlp
      have hplain : l.enc_data.plain = bs := by
        have hc := hCons l hlmem hash_table htmem hlhash
        rw [htdh, ← hsha] at hc
        exact sha512_inj hc
      subst hresp
      subst hstored
      unfold retrieve_card
      rw [(hfm s1 rfl).1]
      have hfind2 : s1.lockers.find? (fun y => y.locker_id == l.locker_id &&
          lockerMatchesScope cfg.tenant req.merchant_id req.merchant_customer_id y) =
          some l := by
        apply find_mem_unique
        · rwa [hl]
        · simp [lockerMatchesScope, hlt, hlm, hlc]
        · intro y hy hpy
          simp only [Bool.and_eq_true, beq_iff_eq] at hpy
          exact hUniq y (by rwa [hl] at hy) l hlmem hpy.1
      unfold find_by_locker_id_merchant_id_customer_id
      rw [hfind2]
      simp [gcmDecrypt, hkey, Except.map, deserializePayload, hplain, hdata]
    next hfb =>
      have hfl := find_by_hash_id_inv_none hfb
      split at hAdd
      next hln =>
        rw [hlnOf] at hln
        simp at hln
      next newLocker hln =>
        rw [hlnOf] at hln
        have hnew := Option.some.inj hln
        subst hnew
        split at hAdd
        next e hins =>
          rw [insert_or_get_inserts
            ⟨cfg.tenant, req.merchant_id, req.merchant_customer_id,
              hash_table.hash_id, bs⟩ merchant.key hfl] at hins
          simp at hins
        next l s2 hins =>
          rw [insert_or_get_inserts
            ⟨cfg.tenant, req.merchant_id, req.merchant_customer_id,
              hash_table.hash_id, bs⟩ merchant.key hfl] at hins
          obtain ⟨hla, hlb⟩ := Prod.mk.injEq .. ▸ Except.ok.inj hins
          injection hAdd with e1 e23
          injection e23 with e2 e3
          have hresp : resp = ⟨l.locker_id⟩ := (Except.ok.inj e1).symm
          subst e2
          have hmer2 : find_by_merchant_id req.merchant_id cfg.tenant cfg.master_key s2 =
              .ok merchant := (hfm s2 (by rw [← hlb])).1
          have hlock2 : s2.lockers = s1.lockers ++
              [⟨s1.nextLockerId, cfg.tenant, req.merchant_id, req.merchant_customer_id,
                hash_table.hash_id, gcmEncrypt merchant.key bs⟩] := by
            rw [← hlb]
          have hrt := retrieve_fresh_locker cfg req.merchant_id req.merchant_customer_id
            merchant s1 s2 hash_table.hash_id bs hmer2 hlock2 hfreshLock
          have href : resp.card_reference = s1.nextLockerId := by
            rw [hresp, ← hla]
          rw [href, hdata]
          exact hrt
  next hopt =>
    split at hAdd
    next hash_table s2 hinsh =>
      simp only [insert_hash, Prod.mk.injEq] at hinsh
      obtain ⟨hht, hs2⟩ := hinsh
      have hhtid : hash_table.hash_id = s1.nextHashId := by rw [← hht]
      have hs2l : s2.lockers = s1.lockers := by rw [← hs2]
      have hs2nl : s2.nextLockerId = s1.nextLockerId := by rw [← hs2]
      split at hAdd
      next hln =>
        rw [hlnOf] at hln
        simp at hln
      next newLocker hln =>
        rw [hlnOf] at hln
        have hnew := Option.some.inj hln
        subst hnew
        have hfl2 : s2.lockers.find? (fun l => l.hash_id == hash_table.hash_id &&
            lockerMatchesScope cfg.tenant req.merchant_id req.merchant_customer_id l) =
            none := by
          rw [hs2l, List.find?_eq_none]
          intro y hy hq
          simp only [Bool.and_eq_true, beq_iff_eq] at hq
          obtain ⟨hq1, hq2⟩ := hq
          rw [hhtid] at hq1
          have hlt3 := hHFresh y (by rwa [hl] at hy)
          rw [← hnh] at hlt3
          exact absurd hq1 (Nat.ne_of_lt hlt3)
        split at hAdd
        next e hins =>
          rw [insert_or_get_inserts
            ⟨cfg.tenant, req.merchant_id, req.merchant_customer_id,
              hash_table.hash_id, bs⟩ merchant.key hfl2] at hins
          simp at hins
        next l s3 hins =>
          rw [insert_or_get_inserts
            ⟨cfg.tenant, req.merchant_id, req.merchant_customer_id,
              hash_table.hash_id, bs⟩ merchant.key hfl2] at hins
          obtain ⟨hla, hlb⟩ := Prod.mk.injEq .. ▸ Except.ok.inj hins
          injection hAdd with e1 e23
          injection e23 with e2 e3
          have hresp : resp = ⟨l.locker_id⟩ := (Except.ok.inj e1).symm
          subst e2
          have hmer3 : find_by_merchant_id req.merchant_id cfg.tenant cfg.master_key
              s3 = .ok merchant := (hfm s3 (by rw [← hlb, ← hs2])).1
          have hlock3 : s3.lockers = s2.lockers ++
              [⟨s2.nextLockerId, cfg.tenant, req.merchant_id, req.merchant_customer_id,
                hash_table.hash_id, gcmEncrypt merchant.key bs⟩] := by
            rw [← hlb]
          have hpre3 : ∀ y ∈ s2.lockers, y.locker_id ≠ s2.nextLockerId := by
            intro y hy
            rw [hs2l] at hy
            rw [hs2nl]
            exact hfreshLock y hy
          have hrt := retrieve_fresh_locker cfg req.merchant_id
            req.merchant_customer_id merchant s2 s3 hash_table.hash_id bs
            hmer3 hlock3 hpre3
          have href : resp.card_reference = s2.nextLockerId := by
            rw [hresp, ← hla]
          rw [href, hdata]
          exact hrt


/-- C1: dedup. After a successful store of payload P for a customer,
storing any payload with a byte-identical canonical serialization for the
same (tenant, merchant, customer) returns the same card reference, leaves
the state unchanged (no second vault record), and performs no locker
insert call at all. -/
theorem add_card_dedup_same_customer (cfg : Config) (r1 r2 : StoreCardRequest)
    (s sF : VaultState) (resp : StoreCardResponse) (tr1 : List DbEvent)
    (hHFresh : HashIdsFresh s)
    (hmid : r2.merchant_id = r1.merchant_id)
    (hcid : r2.merchant_customer_id = r1.merchant_customer_id)
    (hser : serializePayload r2.data = serializePayload r1.data)
    (hval : r2.wellFormed = true)
    (hAdd : add_card cfg r1 s = (.ok resp, sF, tr1)) :
    ∃ tr2 : List DbEvent,
      add_card cfg r2 sF = (.ok resp, sF, tr2) ∧
      ∀ h : Nat, DbEvent.insertOrGet h ∉ tr2 := by
  unfold add_card at hAdd
  split at hAdd
  case isFalse hwf => simp at hAdd
  case isTrue hwf =>
  split at hAdd
  next e heq => simp at hAdd
  next merchant s1 heq =>
  obtain ⟨hh, hl, hnh, hnl, hfm⟩ := find_or_create_ok heq
  split at hAdd
  next hhd => simp at hAdd
  next hash_data hhd =>
  obtain ⟨bs, hbs, hsha⟩ := Option.map_eq_some'.mp hhd
  have hhd2 : hashDataOf r2 = some hash_data := by
    unfold hashDataOf
    rw [hser, hbs]
    simp [hsha]
  split at hAdd
  next hash_table hopt =>
    split at hAdd
    next e hfb => simp at hAdd
    next stored hfb =>
      injection hAdd with e1 e23
      injection e23 with e2 e3
      have hresp : resp = ⟨stored.locker_id⟩ := (Except.ok.inj e1).symm
      subst e2
      have hfoc2 : find_or_create_by_merchant_id r2.merchant_id cfg.tenant
          cfg.master_key s1 = .ok (merchant, s1) := by
        rw [hmid]
        exact (hfm s1 rfl).2
      have hfb2 : find_by_hash_id_merchant_id_customer_id hash_table.hash_id
          cfg.tenant r2.merchant_id r2.merchant_customer_id merchant.key s1 =
          .ok (some stored) := by
        rw [hmid, hcid]
        exact hfb
      refine ⟨[.findOrCreateMerchant, .findByDataHash (some hash_table.hash_id),
        .findByHashId hash_table.hash_id], ?_, by simp⟩
      simp only [add_card, hval, if_true, hfoc2, hhd2, hopt, hfb2, hresp]
    next hfb =>
      have hfl := find_by_hash_id_inv_none hfb
      split at hAdd
      next hln =>
        have hlnOf : lockerNewOf r1 cfg.tenant hash_table.hash_id =
            some ⟨cfg.tenant, r1.merchant_id, r1.merchant_customer_id,
              hash_table.hash_id, bs⟩ := by
          unfold lockerNewOf
          rw [hbs]
          rfl
        rw [hlnOf] at hln
        simp at hln
      next newLocker hln =>
        have hlnOf : lockerNewOf r1 cfg.tenant hash_table.hash_id =
            some ⟨cfg.tenant, r1.merchant_id, r1.merchant_customer_id,
              hash_table.hash_id, bs⟩ := by
          unfold lockerNewOf
          rw [hbs]
          rfl
        rw [hlnOf] at hln
        have hnew := Option.some.inj hln
        subst hnew
        split at hAdd
        next e hins =>
          rw [insert_or_get_inserts
            ⟨cfg.tenant, r1.merchant_id, r1.merchant_customer_id,
              hash_table.hash_id, bs⟩ merchant.key hfl] at hins
          simp at hins
        next l s2 hins =>
          rw [insert_or_get_inserts
            ⟨cfg.tenant, r1.merchant_id, r1.merchant_customer_id,
              hash_table.hash_id, bs⟩ merchant.key hfl] at hins
          obtain ⟨hla, hlb⟩ := Prod.mk.injEq .. ▸ Except.ok.inj hins
          injection hAdd with e1 e23
          injection e23 with e2 e3
          have hresp : resp = ⟨l.locker_id⟩ := (Except.ok.inj e1).symm
          subst e2
          have hfoc2 : find_or_create_by_merchant_id r2.merchant_id cfg.tenant
              cfg.master_key s2 = .ok (merchant, s2) := by
            rw [hmid]
            exact (hfm s2 (by rw [← hlb])).2
          have hs2h : s2.hashes = s1.hashes := by rw [← hlb]
          have hopt2 : find_by_data_hash hash_data s2 = some hash_table :=
            (find_by_data_hash_congr hs2h).trans hopt
          have hs2lock : s2.lockers = s1.lockers ++
              [⟨s1.nextLockerId, cfg.tenant, r1.merchant_id, r1.merchant_customer_id,
                hash_table.hash_id, gcmEncrypt merchant.key bs⟩] := by
            rw [← hlb]
          have hfb2 : find_by_hash_id_merchant_id_customer_id hash_table.hash_id
              cfg.tenant r2.merchant_id r2.merchant_customer_id merchant.key s2 =
              .ok (some ⟨s1.nextLockerId, hash_table.hash_id, bs⟩) := by
            rw [hmid, hcid]
            unfold find_by_hash_id_merchant_id_customer_id
            rw [hs2lock, find_append_none hfl]
            simp [List.find?, lockerMatchesScope, gcmDecrypt, gcmEncrypt, Except.map]
          refine ⟨[.findOrCreateMerchant, .findByDataHash (some hash_table.hash_id),
            .findByHashId hash_table.hash_id], ?_, by simp⟩
          simp only [add_card, hval, if_true, hfoc2, hhd2, hopt2, hfb2, hresp, ← hla]
  next hopt =>
    split at hAdd
    next hash_table s2 hinsh =>
      simp only [insert_hash, Prod.mk.injEq] at hinsh
      obtain ⟨hht, hs2⟩ := hinsh
      have hhtid : hash_table.hash_id = s1.nextHashId := by rw [← hht]
      have hs2l : s2.lockers = s1.lockers := by rw [← hs2]
      have hs2h : s2.hashes = s1.hashes ++ [⟨s1.nextHashId, hash_data⟩] := by
        rw [← hs2]
      split at hAdd
      next hln =>
        have hlnOf : lockerNewOf r1 cfg.tenant hash_table.hash_id =
            some ⟨cfg.tenant, r1.merchant_id, r1.merchant_customer_id,
              hash_table.hash_id, bs⟩ := by
          unfold lockerNewOf
          rw [hbs]
          rfl
        rw [hlnOf] at hln
        simp at hln
      next newLocker hln =>
        have hlnOf : lockerNewOf r1 cfg.tenant hash_table.hash_id =
            some ⟨cfg.tenant, r1.merchant_id, r1.merchant_customer_id,
              hash_table.hash_id, bs⟩ := by
          unfold lockerNewOf
          rw [hbs]
          rfl
        rw [hlnOf] at hln
        have hnew := Option.some.inj hln
        subst hnew
        have hfl2 : s2.lockers.find? (fun l => l.hash_id == hash_table.hash_id &&
            lockerMatchesScope cfg.tenant r1.merchant_id r1.merchant_customer_id l) =
            none := by
          rw [hs2l, List.find?_eq_none]
          intro y hy hq
          simp only [Bool.and_eq_true, beq_iff_eq] at hq
          obtain ⟨hq1, hq2⟩ := hq
          rw [hhtid] at hq1
          have hlt3 := hHFresh y (by rwa [hl] at hy)
          rw [← hnh] at hlt3
          exact absurd hq1 (Nat.ne_of_lt hlt3)
        split at hAdd
        next e hins =>
          rw [insert_or_get_inserts
            ⟨cfg.tenant, r1.merchant_id, r1.merchant_customer_id,
              hash_table.hash_id, bs⟩ merchant.key hfl2] at hins
          simp at hins
        next l s3 hins =>
          rw [insert_or_get_inserts
            ⟨cfg.tenant, r1.merchant_id, r1.merchant_customer_id,
              hash_table.hash_id, bs⟩ merchant.key hfl2] at hins
          obtain ⟨hla, hlb⟩ := Prod.mk.injEq .. ▸ Except.ok.inj hins
          injection hAdd with e1 e23
          injection e23 with e2 e3
          have hresp : resp = ⟨l.locker_id⟩ := (Except.ok.inj e1).symm
          subst e2
          have hfoc2 : find_or_create_by_merchant_id r2.merchant_id cfg.tenant
              cfg.master_key s3 = .ok (merchant, s3) := by
            rw [hmid]
            exact (hfm s3 (by rw [← hlb, ← hs2])).2
          have hs3h : s3.hashes = s1.hashes ++ [⟨s1.nextHashId, hash_data⟩] := by
            rw [← hlb, ← hs2]
          have hoptU : s1.hashes.find? (fun e => e.data_hash == hash_data) = none := by
            unfold find_by_data_hash at hopt
            exact hopt
          have hopt2 : find_by_data_hash hash_data s3 = some hash_table := by
            unfold find_by_data_hash
            rw [hs3h, find_append_none hoptU]
            simp [List.find?, hht]
          have hs3lock : s3.lockers = s2.lockers ++
              [⟨s2.nextLockerId, cfg.tenant, r1.merchant_id, r1.merchant_customer_id,
                hash_table.hash_id, gcmEncrypt merchant.key bs⟩] := by
            rw [← hlb]
          have hfb2 : find_by_hash_id_merchant_id_customer_id hash_table.hash_id
              cfg.tenant r2.merchant_id r2.merchant_customer_id merchant.key s3 =
              .ok (some ⟨s2.nextLockerId, hash_table.hash_id, bs⟩) := by
            rw [hmid, hcid]
            unfold find_by_hash_id_merchant_id_customer_id
            rw [hs3lock, find_append_none hfl2]
            simp [List.find?, lockerMatchesScope, gcmDecrypt, gcmEncrypt, Except.map]
          refine ⟨[.findOrCreateMerchant, .findByDataHash (some hash_table.hash_id),
            .findByHashId hash_table.hash_id], ?_, by simp⟩
          simp only [add_card, hval, if_true, hfoc2, hhd2, hopt2, hfb2, hresp, ← hla]


/-- Witness for C2 at a concrete run: store bytes [9, 2] from the empty
state, retrieve the returned reference. -/
theorem store_retrieve_roundtrip_witness :
    retrieve_card ⟨0, "t"⟩ ⟨"m1", "c1", 0⟩
      ⟨[⟨"t", "m1", ⟨0, 0⟩⟩], [⟨0, [0, 9, 2]⟩],
       [⟨0, "t", "m1", "c1", 0, ⟨0, [9, 2]⟩⟩], 1, 1, 1⟩ = .ok ⟨.bytes [9, 2]⟩ :=
  store_retrieve_roundtrip ⟨0, "t"⟩ ⟨"m1", "c1", .bytes [9, 2], true⟩
    ⟨[], [], [], 0, 0, 0⟩
    ⟨[⟨"t", "m1", ⟨0, 0⟩⟩], [⟨0, [0, 9, 2]⟩],
     [⟨0, "t", "m1", "c1", 0, ⟨0, [9, 2]⟩⟩], 1, 1, 1⟩
    ⟨0⟩
    [.findOrCreateMerchant, .findByDataHash none, .insertHash 0, .insertOrGet 0]
    (by simp [LockerIdsUnique]) (by simp [LockerIdsFresh])
    (by simp [HashIdsFresh]) (by simp [LockerHashConsistent])
    (by decide)

/-- Witness for C1 at a concrete run: the second identical store against
the post-store state returns reference 0, the unchanged state, and a trace
without insert calls. -/
theorem add_card_dedup_same_customer_witness :
    ∃ tr2 : List DbEvent,
      add_card ⟨0, "t"⟩ ⟨"m1", "c1", .bytes [9, 2], true⟩
        ⟨[⟨"t", "m1", ⟨0, 0⟩⟩], [⟨0, [0, 9, 2]⟩],
         [⟨0, "t", "m1", "c1", 0, ⟨0, [9, 2]⟩⟩], 1, 1, 1⟩ =
        (.ok ⟨0⟩,
         ⟨[⟨"t", "m1", ⟨0, 0⟩⟩], [⟨0, [0, 9, 2]⟩],
          [⟨0, "t", "m1", "c1", 0, ⟨0, [9, 2]⟩⟩], 1, 1, 1⟩, tr2) ∧
      ∀ h : Nat, DbEvent.insertOrGet h ∉ tr2 :=
  add_card_dedup_same_customer ⟨0, "t"⟩ ⟨"m1", "c1", .bytes [9, 2], true⟩
    ⟨"m1", "c1", .bytes [9, 2], true⟩
    ⟨[], [], [], 0, 0, 0⟩
    ⟨[⟨"t", "m1", ⟨0, 0⟩⟩], [⟨0, [0, 9, 2]⟩],
     [⟨0, "t", "m1", "c1", 0, ⟨0, [9, 2]⟩⟩], 1, 1, 1⟩
    ⟨0⟩
    [.findOrCreateMerchant, .findByDataHash none, .insertHash 0, .insertOrGet 0]
    (by simp [HashIdsFresh]) rfl rfl rfl rfl (by decide)

end CardVault
